import Mathlib

/-!
Verification of the Federation appeal bot (`fedbot.py`).

The bot keeps one SQLite table `appeals(id, user_id, username, appeal_type,
status, timestamp)` and exposes five handlers over a messaging platform:
`start`, `appeal`, a callback handler `handle_appeal`, and the admin-gated
`pending` and `resolve_appeal` (shared by `/approve` and `/reject`).

The embedding below is a shallow model of that code: the table is a list of
rows plus the AUTOINCREMENT counter, each handler is a pure function from a
store and the inbound event data to a new store and a list of outbound
effects (replies, message edits, direct sends), and the one place where the
Python code can raise out of a handler (`int(context.args[0])` in `pending`)
is modelled with `Except`.
-/

namespace FedBot

/-- `class AppealType(Enum)`: the two selectable appeal types. -/
inductive AppealType
  | unban
  | admin
deriving DecidableEq

/-- The `.value` of each `AppealType` member, as stored in the table. -/
def AppealType.value : AppealType → String
  | .unban => "unban"
  | .admin => "admin"

/-- `AppealType(query.data)`: Python `Enum` lookup by value; an unknown value
raises `ValueError`, modelled as `none`. -/
def AppealType.ofValue (s : String) : Option AppealType :=
  if s = "unban" then some .unban
  else if s = "admin" then some .admin
  else none

/-- `class AppealStatus(Enum)`: the three lifecycle states. -/
inductive AppealStatus
  | pending
  | approved
  | rejected
deriving DecidableEq

/-- The `.value` of each `AppealStatus` member. -/
def AppealStatus.value : AppealStatus → String
  | .pending => "pending"
  | .approved => "approved"
  | .rejected => "rejected"

/-- One row of the `appeals` table (columns in `CREATE TABLE` order). -/
structure Appeal where
  id : Nat
  user_id : Int
  username : String
  appeal_type : AppealType
  status : AppealStatus
  timestamp : String
deriving DecidableEq

/-- The `appeals` table together with SQLite's AUTOINCREMENT sequence value:
the id the next insert will receive (always one more than the largest id ever
assigned; AUTOINCREMENT never reuses ids). -/
structure Store where
  rows : List Appeal
  next_id : Nat
deriving DecidableEq

/-- The freshly created table: no rows, first id will be 1. -/
def Store.empty : Store := ⟨[], 1⟩

/-- `INSERT INTO appeals (user_id, username, appeal_type, timestamp) VALUES
(?, ?, ?, ?)`: the id comes from AUTOINCREMENT and `status` takes its column
DEFAULT `"pending"`. -/
def Store.insert (s : Store) (uid : Int) (uname : String) (t : AppealType)
    (ts : String) : Store :=
  { rows := s.rows ++ [⟨s.next_id, uid, uname, t, .pending, ts⟩]
  , next_id := s.next_id + 1 }

/-- `SELECT COUNT(*) FROM appeals WHERE status='pending'`. -/
def Store.countPending (s : Store) : Nat :=
  (s.rows.filter (fun r => r.status == AppealStatus.pending)).length

/-- `SELECT * FROM appeals WHERE status='pending' LIMIT ? OFFSET ?`.
SQLite treats a negative OFFSET as 0, which `Int.toNat` mirrors. -/
def Store.listPending (s : Store) (limit : Nat) (offset : Int) : List Appeal :=
  (((s.rows.filter (fun r => r.status == AppealStatus.pending)).drop
      offset.toNat).take limit)

/-- `UPDATE appeals SET status=? WHERE id=?`, returning the updated table and
`cursor.rowcount` (the number of rows the WHERE clause matched). The update
is unconditional on the prior status. -/
def Store.updateStatus (s : Store) (id : Nat) (st : AppealStatus) :
    Store × Nat :=
  let f := fun (r : Appeal) => if r.id = id then { r with status := st } else r
  ({ s with rows := s.rows.map f }
  , (s.rows.filter (fun r => r.id == id)).length)

/-- `SELECT user_id FROM appeals WHERE id=?` followed by `fetchone()`:
the first matching row's `user_id`, or `none` when the result set is empty. -/
def Store.getUserId (s : Store) (id : Nat) : Option Int :=
  (s.rows.find? (fun r => r.id == id)).map Appeal.user_id

/-- The status column of the first row with the given id (a read-back). -/
def Store.statusOf (s : Store) (id : Nat) : Option AppealStatus :=
  (s.rows.find? (fun r => r.id == id)).map Appeal.status

/-- An `InlineKeyboardButton(label, callback_data)`. -/
structure Button where
  label : String
  callback_data : String
deriving DecidableEq

/-- One outbound side effect of a handler: `reply_text` without and with an
inline keyboard, `edit_message_text`, and `bot.send_message` to a chat id. -/
inductive Effect
  | reply (text : String)
  | replyMarkup (text : String) (keyboard : List Button)
  | editMessage (text : String)
  | sendMessage (chat : Int) (text : String)
deriving DecidableEq

/-- An ASCII decimal digit (the case `str.isdigit` and `int` need here). -/
def isAsciiDigit (c : Char) : Bool := '0' ≤ c && c ≤ '9'

/-- Value of a digit string (most significant digit first). -/
def digitsToNat (l : List Char) : Nat :=
  l.foldl (fun acc c => acc * 10 + (c.toNat - '0'.toNat)) 0

/-- Python `str.isdigit()`: non-empty and all digits. -/
def pyIsDigit (s : String) : Bool :=
  !s.data.isEmpty && s.data.all isAsciiDigit

/-- Python `int(s)` on a decimal string: surrounding whitespace is stripped,
an optional single sign precedes a non-empty digit run; anything else raises
`ValueError`, modelled as `none`. (Underscore digit grouping is not used by
this bot's inputs and is not modelled.) -/
def pyInt (s : String) : Option Int :=
  let core :=
    ((s.data.dropWhile Char.isWhitespace).reverse.dropWhile
      Char.isWhitespace).reverse
  match core with
  | '-' :: rest =>
      if rest.isEmpty then none
      else if rest.all isAsciiDigit then some (-(digitsToNat rest : Int))
      else none
  | '+' :: rest =>
      if rest.isEmpty then none
      else if rest.all isAsciiDigit then some (digitsToNat rest : Int)
      else none
  | rest =>
      if rest.isEmpty then none
      else if rest.all isAsciiDigit then some (digitsToNat rest : Int)
      else none

/-- Python `str.capitalize()`: first character upper-cased, rest lower. -/
def pyCapitalize (s : String) : String :=
  match s.data with
  | [] => ""
  | c :: rest => ⟨c.toUpper :: rest.map Char.toLower⟩

/-- The admin notification sent by `handle_appeal` (`nowFmt` is the second
`datetime.now()` call, formatted with `strftime`). -/
def adminNotification (uname : String) (t : AppealType) (nowFmt : String) :
    String :=
  "🚨 New Appeal\nUser: @" ++ uname ++ "\nType: " ++ t.value ++ "\nTime: "
    ++ nowFmt ++ "\n\nUse /pending to view all appeals"

/-- `handle_appeal(update, context)`: parse the callback payload as an
`AppealType`; on success insert a pending row, edit the message to confirm
and notify the admin; on `ValueError` edit the message to the
invalid-selection text and write nothing. `nowIso` is the
`datetime.now().isoformat()` stored in the row. -/
def handle_appeal (adminId : Int) (s : Store) (uid : Int) (uname : String)
    (payload : String) (nowIso nowFmt : String) : Store × List Effect :=
  match AppealType.ofValue payload with
  | some t =>
      (s.insert uid uname t nowIso,
       [ .editMessage ("✅ " ++ pyCapitalize t.value ++ " appeal submitted!")
       , .sendMessage adminId (adminNotification uname t nowFmt) ])
  | none => (s, [.editMessage "❌ Invalid appeal type selected!"])

/-- The page slice `pending` fetches: `LIMIT 5 OFFSET page*5`. -/
def pendingSlice (s : Store) (page : Int) : List Appeal :=
  s.listPending 5 (page * 5)

/-- The header line of the `/pending` reply. -/
def pendingHeader (page : Int) : String :=
  "📋 Pending Appeals (Page " ++ toString (page + 1) ++ "):\n"

/-- One rendered appeal in the `/pending` reply (tuple indices follow the
table's column order: `appeal[0]=id`, `appeal[1]=user_id`, `appeal[2]=username`,
`appeal[3]=appeal_type`, `appeal[5]=timestamp`). -/
def pendingEntry (r : Appeal) : String :=
  "\nID: " ++ toString r.id ++ "\nUser: @" ++ r.username ++ " (ID: "
    ++ toString r.user_id ++ ")\nType: " ++ r.appeal_type.value ++ "\nTime: "
    ++ r.timestamp ++ "\n───────────────"

/-- The keyboard row `pending` builds for a page: "⬅ Previous" iff `page > 0`,
then "Next ➡" iff `(page + 1) * 5 < total`. -/
def pendingKeyboard (s : Store) (page : Int) : List Button :=
  (if page > 0 then
    [⟨"⬅ Previous", "page_" ++ toString (page - 1)⟩] else [])
  ++ (if (page + 1) * 5 < (s.countPending : Int) then
    [⟨"Next ➡", "page_" ++ toString (page + 1)⟩] else [])

/-- The body of `pending` after the admin gate and page-argument parse: the
empty-state reply when the slice is empty, otherwise the rendered list with
the keyboard attached when non-empty (`reply_markup=None` otherwise). -/
def pendingPage (s : Store) (page : Int) : List Effect :=
  let appeals := pendingSlice s page
  if appeals.isEmpty then [.reply "No pending appeals!"]
  else
    let response := pendingHeader page :: appeals.map pendingEntry
    let keyboard := pendingKeyboard s page
    if keyboard.isEmpty then
      [.reply (String.intercalate "\n" response)]
    else
      [.replyMarkup (String.intercalate "\n" response) keyboard]

/-- `pending(update, context)` with its `@admin_only` gate.
`page = int(context.args[0]) if context.args else 0` sits outside any
`try`, so a non-parseable first argument raises `ValueError` out of the
handler; that escape is the `Except.error` case. -/
def pending (adminId : Int) (s : Store) (invoker : Int)
    (args : List String) : Except String (List Effect) :=
  if invoker ≠ adminId then .ok [.reply "⛔ Unauthorized access!"]
  else
    match args with
    | [] => .ok (pendingPage s 0)
    | a :: _ =>
        match pyInt a with
        | some page => .ok (pendingPage s page)
        | none => .error "ValueError: invalid literal for int()"

/-- `resolve_appeal(update, context, status)` with its `@admin_only` gate.
A missing argument (`IndexError`) or non-digit id (`ValueError`) is caught
and answered with the usage message; a zero rowcount with "not found"; an
empty `fetchone()` would hit the catch-all `except Exception` branch. -/
def resolve_appeal (adminId : Int) (s : Store) (invoker : Int)
    (args : List String) (st : AppealStatus) : Store × List Effect :=
  if invoker ≠ adminId then (s, [.reply "⛔ Unauthorized access!"])
  else
    match args with
    | [] => (s, [.reply ("Usage: /" ++ st.value ++ " <appeal_id>")])
    | appeal_id :: _ =>
        if pyIsDigit appeal_id then
          let idN := digitsToNat appeal_id.data
          let upd := s.updateStatus idN st
          if upd.2 = 0 then (upd.1, [.reply "⚠ Appeal ID not found!"])
          else
            match upd.1.getUserId idN with
            | some uid =>
                (upd.1,
                 [ .reply (pyCapitalize st.value ++ " appeal #" ++ appeal_id)
                 , .sendMessage uid
                     ("📨 Your appeal has been " ++ st.value
                       ++ "!\n\nReference ID: " ++ appeal_id) ])
            | none => (upd.1, [.reply "❌ Error processing request"])
        else (s, [.reply ("Usage: /" ++ st.value ++ " <appeal_id>")])

/-- The inbound events `main()` registers handlers for: `/start`, `/appeal`,
`/pending`, `/approve`, `/reject`, and the single pattern-free
`CallbackQueryHandler(handle_appeal)` that receives every callback event. -/
inductive Op
  | startCmd (uid : Int)
  | appealCmd (uid : Int)
  | callback (uid : Int) (uname : String) (payload : String)
      (nowIso nowFmt : String)
  | pendingCmd (invoker : Int) (args : List String)
  | approveCmd (invoker : Int) (args : List String)
  | rejectCmd (invoker : Int) (args : List String)

/-- What one dispatched event leaves behind: the table afterwards, the
outbound effects, and whether an exception escaped the handler (reaching
only the dispatcher's `add_error_handler` logger). -/
structure Outcome where
  store : Store
  effects : List Effect
  raised : Bool
deriving DecidableEq

/-- Dispatch of one inbound event, exactly as `main()` wires it: commands go
to their handlers, every callback event goes to `handle_appeal`. -/
def step (adminId : Int) (s : Store) : Op → Outcome
  | .startCmd _ =>
      ⟨s, [.reply
        "📝 Use /appeal to submit a FedBan appeal or request Fed Admin status"]
      , false⟩
  | .appealCmd _ =>
      ⟨s, [.replyMarkup "Select appeal type:"
            [⟨"🔓 Fed Unban Appeal", "unban"⟩, ⟨"👑 Fed Admin Request", "admin"⟩]]
      , false⟩
  | .callback uid uname payload nowIso nowFmt =>
      let out := handle_appeal adminId s uid uname payload nowIso nowFmt
      ⟨out.1, out.2, false⟩
  | .pendingCmd invoker args =>
      match pending adminId s invoker args with
      | .ok effs => ⟨s, effs, false⟩
      | .error _ => ⟨s, [], true⟩
  | .approveCmd invoker args =>
      let out := resolve_appeal adminId s invoker args .approved
      ⟨out.1, out.2, false⟩
  | .rejectCmd invoker args =>
      let out := resolve_appeal adminId s invoker args .rejected
      ⟨out.1, out.2, false⟩

/-- Well-formedness the schema guarantees: every id is below the
AUTOINCREMENT counter, and ids are pairwise distinct. -/
def Store.WF (s : Store) : Prop :=
  (∀ r ∈ s.rows, r.id < s.next_id) ∧ (s.rows.map Appeal.id).Nodup

instance (s : Store) : Decidable s.WF := by
  unfold Store.WF
  infer_instance

/-- The fields of a row other than `status` (the frame for claim C10). -/
def Appeal.frameFields (r : Appeal) : Nat × Int × String × AppealType × String :=
  (r.id, r.user_id, r.username, r.appeal_type, r.timestamp)

/-- Whether some effect carries an inline keyboard containing the given
button label. -/
def hasButton (effs : List Effect) (lbl : String) : Bool :=
  effs.any (fun e =>
    match e with
    | .replyMarkup _ kb => kb.any (fun b => b.label == lbl)
    | _ => false)

/-! ## Helper lemmas about the store operations -/

theorem find?_map_of_id_preserved (f : Appeal → Appeal)
    (hid : ∀ r, (f r).id = r.id) (l : List Appeal) (j : Nat) :
    (l.map f).find? (fun r => r.id == j)
      = (l.find? (fun r => r.id == j)).map f := by
  induction l with
  | nil => rfl
  | cons a t ih =>
      by_cases h : (a.id == j) = true
      · rw [List.map_cons,
          List.find?_cons_of_pos (p := fun (r : Appeal) => r.id == j) _
            (by simpa [hid a] using h),
          List.find?_cons_of_pos (p := fun (r : Appeal) => r.id == j) _ h]
        rfl
      · rw [List.map_cons,
          List.find?_cons_of_neg (p := fun (r : Appeal) => r.id == j) _
            (by simpa [hid a] using h),
          List.find?_cons_of_neg (p := fun (r : Appeal) => r.id == j) _ h, ih]

theorem updateStatus_id_preserved (id : Nat) (st : AppealStatus) (r : Appeal) :
    (if r.id = id then { r with status := st } else r).id = r.id := by
  by_cases h : r.id = id <;> simp [h]

theorem statusOf_update (s : Store) (id j : Nat) (st : AppealStatus) :
    (s.updateStatus id st).1.statusOf j
      = (s.statusOf j).map (fun old => if j = id then st else old) := by
  unfold Store.updateStatus Store.statusOf
  simp only
  rw [find?_map_of_id_preserved _ (updateStatus_id_preserved id st)]
  cases hfind : s.rows.find? (fun r => r.id == j) with
  | none => rfl
  | some r₁ =>
      have hidr : r₁.id = j := by simpa using List.find?_some hfind
      by_cases h : j = id <;> simp [Option.map, hidr, h]

theorem getUserId_update (s : Store) (id j : Nat) (st : AppealStatus) :
    (s.updateStatus id st).1.getUserId j = s.getUserId j := by
  unfold Store.updateStatus Store.getUserId
  simp only
  rw [find?_map_of_id_preserved _ (updateStatus_id_preserved id st)]
  cases hfind : s.rows.find? (fun r => r.id == j) with
  | none => rfl
  | some r₁ => by_cases h : r₁.id = id <;> simp [Option.map, h]

theorem updateStatus_nomatch (s : Store) (id : Nat) (st : AppealStatus)
    (h : ∀ r ∈ s.rows, r.id ≠ id) : (s.updateStatus id st).1 = s := by
  unfold Store.updateStatus
  simp only
  have hmap : s.rows.map
      (fun r => if r.id = id then { r with status := st } else r) = s.rows := by
    rw [List.map_congr_left (g := fun r => r) (fun r hr => by simp [h r hr])]
    exact List.map_id' s.rows
  simp [hmap]

theorem updateStatus_rowcount_zero (s : Store) (id : Nat) (st : AppealStatus) :
    (s.updateStatus id st).2 = 0 ↔ ∀ r ∈ s.rows, r.id ≠ id := by
  unfold Store.updateStatus
  simp only [List.length_eq_zero, List.filter_eq_nil_iff]
  constructor
  · intro h r hr; simpa using h r hr
  · intro h r hr; simpa using h r hr

theorem find?_of_mem_of_nodup (l : List Appeal)
    (hnd : (l.map Appeal.id).Nodup) (r0 : Appeal) (hmem : r0 ∈ l) (j : Nat)
    (hid : r0.id = j) : l.find? (fun r => r.id == j) = some r0 := by
  induction l with
  | nil => cases hmem
  | cons a t ih =>
      rw [List.map_cons, List.nodup_cons] at hnd
      rcases List.mem_cons.mp hmem with h0 | h0
      · subst h0
        exact List.find?_cons_of_pos (p := fun (r : Appeal) => r.id == j) _ (by simp [hid])
      · have hane : ¬((a.id == j) = true) := by
          simp only [beq_iff_eq]
          intro hEq
          apply hnd.1
          have hj : j ∈ t.map Appeal.id := by
            have := List.mem_map_of_mem Appeal.id h0
            rwa [hid] at this
          rwa [hEq]
        rw [List.find?_cons_of_neg (p := fun (r : Appeal) => r.id == j) _ hane]
        exact ih hnd.2 h0

theorem statusOf_insert (s : Store) (uid : Int) (uname : String)
    (t : AppealType) (ts : String) (j : Nat) :
    (s.insert uid uname t ts).statusOf j
      = ((s.statusOf j).or
          (if j = s.next_id then some .pending else none)) := by
  unfold Store.insert Store.statusOf
  simp only [List.find?_append]
  cases hfind : s.rows.find? (fun r => r.id == j) with
  | none =>
      by_cases h : j = s.next_id
      · subst h
        simp [List.find?, Option.or]
      · have hbeq : (s.next_id == j) = false := by
          simp only [beq_eq_false_iff_ne, ne_eq]
          exact fun hEq => h hEq.symm
        simp [List.find?, Option.or, hbeq, h]
  | some r₁ => rfl

theorem ofValue_page_prefix (t : String) :
    AppealType.ofValue ("page_" ++ t) = none := by
  unfold AppealType.ofValue
  have h1 : ("page_" ++ t) ≠ "unban" := by
    intro h
    have h2 := congrArg String.data h
    simp only [String.data] at h2
    cases h2
  have h2 : ("page_" ++ t) ≠ "admin" := by
    intro h
    have h3 := congrArg String.data h
    simp only [String.data] at h3
    cases h3
  simp [h1, h2]

theorem resolve_no_reopen (adminId : Int) (s : Store) (invoker : Int)
    (args : List String) (st : AppealStatus) (id : Nat)
    (hst : st ≠ .pending)
    (h : (resolve_appeal adminId s invoker args st).1.statusOf id
        = some .pending) :
    s.statusOf id = some .pending := by
  unfold resolve_appeal at h
  split at h
  · exact h
  · split at h
    · exact h
    · dsimp only at h
      split at h
      · split at h
        · rw [statusOf_update] at h
          cases hso : s.statusOf id with
          | none => rw [hso] at h; cases h
          | some old =>
              rw [hso] at h
              simp only [Option.map] at h
              injection h with h4
              split at h4
              · exact absurd h4 hst
              · rw [h4]
        · split at h <;>
          · rw [statusOf_update] at h
            cases hso : s.statusOf id with
            | none => rw [hso] at h; cases h
            | some old =>
                rw [hso] at h
                simp only [Option.map] at h
                injection h with h4
                split at h4
                · exact absurd h4 hst
                · rw [h4]
      · exact h

/-- Claim C1 (amended): a status that reads `pending` after an operation was
`pending` before it (or the row did not exist yet): no operation ever moves
an appeal back to `pending`. The original claim — that `approved` and
`rejected` are terminal — is false: `resolve_appeal` updates the status
unconditionally, so a later `/reject` overwrites an `approved` status (see
the counterexample). -/
theorem C1_status_no_reopen (adminId : Int) (s : Store) (op : Op) (id : Nat)
    (h : (step adminId s op).store.statusOf id = some .pending) :
    s.statusOf id = some .pending ∨ s.statusOf id = none := by
  cases op with
  | startCmd u => exact Or.inl h
  | appealCmd u => exact Or.inl h
  | callback uid uname payload nowIso nowFmt =>
      cases hof : AppealType.ofValue payload with
      | none =>
          left
          simpa [step, handle_appeal, hof] using h
      | some t =>
          have h' : (s.insert uid uname t nowIso).statusOf id
              = some .pending := by
            simpa [step, handle_appeal, hof] using h
          rw [statusOf_insert] at h'
          cases hso : s.statusOf id with
          | none => exact Or.inr rfl
          | some old =>
              left
              rw [hso] at h'
              simpa [Option.or] using h'
  | pendingCmd invoker args =>
      left
      cases hp : pending adminId s invoker args <;>
        simpa [step, hp] using h
  | approveCmd invoker args =>
      left
      refine resolve_no_reopen adminId s invoker args .approved id
        (by intro hc; cases hc) ?_
      simpa [step] using h
  | rejectCmd invoker args =>
      left
      refine resolve_no_reopen adminId s invoker args .rejected id
        (by intro hc; cases hc) ?_
      simpa [step] using h

/-- Claim C1 witness: instantiation of the amended theorem on a concrete
run — creating appeal 1 leaves it `pending`, and it did not exist before. -/
theorem C1_status_no_reopen_witness :
    ((step 42 Store.empty (.callback 7 "alice" "unban" "t0" "t1")).store.statusOf 1
        = some .pending)
    ∧ (Store.empty.statusOf 1 = some .pending
        ∨ Store.empty.statusOf 1 = none) :=
  ⟨by decide, C1_status_no_reopen 42 Store.empty
    (.callback 7 "alice" "unban" "t0" "t1") 1 (by decide)⟩

/-- Claim C1 counterexample: on the reachable run create → `/approve 1` →
`/reject 1`, appeal 1 reads `approved` after the second step and `rejected`
after the third — an operation did transition an appeal out of `approved`,
refuting the claimed terminality. -/
theorem C1_counterexample :
    ((step 42 ((step 42 Store.empty
        (.callback 7 "alice" "unban" "t0" "t1")).store)
        (.approveCmd 42 ["1"])).store).statusOf 1 = some .approved
    ∧ ((step 42 ((step 42 ((step 42 Store.empty
        (.callback 7 "alice" "unban" "t0" "t1")).store)
        (.approveCmd 42 ["1"])).store)
        (.rejectCmd 42 ["1"])).store).statusOf 1 = some .rejected := by
  constructor <;> decide

/-- Claim C2 (amended): an exception escapes a handler exactly when the
admin invokes `/pending` with a first argument that `int()` cannot parse;
every other event (and every other failure) is answered inside the handler.
The original claim — that no failure ever propagates out of a handler — is
false at `/pending abc` (see the counterexample). -/
theorem C2_exception_escape_iff (adminId : Int) (s : Store) (op : Op) :
    (step adminId s op).raised = true ↔
      ∃ a rest, op = Op.pendingCmd adminId (a :: rest) ∧ pyInt a = none := by
  cases op with
  | startCmd u => simp [step]
  | appealCmd u => simp [step]
  | callback uid uname payload nowIso nowFmt =>
      cases hof : AppealType.ofValue payload <;>
        simp [step, handle_appeal, hof]
  | pendingCmd invoker args =>
      by_cases hinv : invoker = adminId
      · subst hinv
        cases args with
        | nil => simp [step, pending]
        | cons a rest =>
            cases hpi : pyInt a with
            | none =>
                simp only [step, pending]
                constructor
                · intro _
                  exact ⟨a, rest, rfl, hpi⟩
                · intro _
                  simp [hpi]
            | some page => simp [step, pending, hpi]
      · have : ¬invoker = adminId := hinv
        simp [step, pending, this]
  | approveCmd invoker args => simp [step]
  | rejectCmd invoker args => simp [step]

/-- Claim C2 counterexample: `/pending abc` from the admin raises out of the
handler (`int("abc")` is evaluated outside any `try`), refuting the claim
that every failure is converted to a user-facing message in the handler. -/
theorem C2_counterexample :
    (step 42 Store.empty (.pendingCmd 42 ["abc"])).raised = true := by decide

/-- Claim C3: every callback event is dispatched to `handle_appeal` (the
only `CallbackQueryHandler`, registered without a pattern), so a tap on a
pagination control — payload `page_…` — fails the `AppealType` parse: the
store is unchanged, the message is edited to the invalid-selection text, and
no navigation happens. -/
theorem C3_pagination_callback_noop (adminId : Int) (s : Store) (uid : Int)
    (uname t nowIso nowFmt : String) :
    step adminId s (.callback uid uname ("page_" ++ t) nowIso nowFmt)
      = ⟨s, [.editMessage "❌ Invalid appeal type selected!"], false⟩ := by
  simp [step, handle_appeal, ofValue_page_prefix]

theorem hasButton_pendingPage (s : Store) (page : Int) (lbl : String)
    (hne : pendingSlice s page ≠ []) :
    hasButton (pendingPage s page) lbl
      = (pendingKeyboard s page).any (fun b => b.label == lbl) := by
  unfold pendingPage
  rw [if_neg (by simp [List.isEmpty_iff, hne])]
  dsimp only
  by_cases hkb : (pendingKeyboard s page).isEmpty
  · rw [if_pos hkb]
    rw [List.isEmpty_iff.mp hkb]
    simp [hasButton]
  · rw [if_neg hkb]
    simp [hasButton]

/-- Claim C4 (amended): for `total` pending appeals and non-negative page
`k`, `/pending k` lists exactly `max(0, min(5, total − 5k))` appeals, and
answers the empty-state message when that number is zero; when the slice is
non-empty, the "Next ➡" control is attached iff `5·(k+1) < total` and the
"⬅ Previous" control iff `k > 0`. The original claim attaches "previous"
unconditionally whenever `k > 0`, but on an empty slice the handler returns
the empty-state reply with no controls at all (see the counterexample). -/
theorem C4_pagination (s : Store) (k : Nat) :
    (pendingSlice s (k : Int)).length = min 5 (s.countPending - 5 * k)
    ∧ (pendingSlice s (k : Int) = [] →
        pendingPage s (k : Int) = [.reply "No pending appeals!"])
    ∧ (pendingSlice s (k : Int) ≠ [] →
        (hasButton (pendingPage s (k : Int)) "Next ➡" = true
          ↔ 5 * (k + 1) < s.countPending)
        ∧ (hasButton (pendingPage s (k : Int)) "⬅ Previous" = true
          ↔ 0 < k)) := by
  have hoff : ((k : Int) * 5).toNat = k * 5 := by
    rw [show ((k : Int) * 5) = ((k * 5 : Nat) : Int) by push_cast; ring]
    exact Int.toNat_natCast _
  refine ⟨?_, ?_, ?_⟩
  · unfold pendingSlice Store.listPending Store.countPending
    rw [hoff, List.length_take, List.length_drop]
    omega
  · intro hemp
    unfold pendingPage
    rw [if_pos (by simp [List.isEmpty_iff, hemp])]
  · intro hne
    constructor
    · rw [hasButton_pendingPage s _ _ hne]
      unfold pendingKeyboard
      by_cases h1 : (k : Int) > 0 <;>
        by_cases h2 : ((k : Int) + 1) * 5 < (s.countPending : Int) <;>
        simp only [h1, h2, if_pos, if_neg, not_false_iff, List.any_append,
          List.any_cons, List.any_nil, if_true, if_false] <;>
        simp [h1, h2] <;> omega
    · rw [hasButton_pendingPage s _ _ hne]
      unfold pendingKeyboard
      by_cases h1 : (k : Int) > 0 <;>
        by_cases h2 : ((k : Int) + 1) * 5 < (s.countPending : Int) <;>
        simp [h1, h2] <;> omega

/-- Claim C4 witness: on a store with six pending appeals, page 0 has a
non-empty slice; the instantiated theorem yields the "Next ➡" control
(since `5·1 < 6`). -/
theorem C4_pagination_witness :
    hasButton (pendingPage
      ⟨[⟨1, 7, "a", .unban, .pending, "t"⟩, ⟨2, 7, "a", .unban, .pending, "t"⟩,
        ⟨3, 7, "a", .unban, .pending, "t"⟩, ⟨4, 7, "a", .unban, .pending, "t"⟩,
        ⟨5, 7, "a", .unban, .pending, "t"⟩, ⟨6, 7, "a", .unban, .pending, "t"⟩],
       7⟩ ((0 : Nat) : Int)) "Next ➡" = true :=
  (((C4_pagination
      ⟨[⟨1, 7, "a", .unban, .pending, "t"⟩, ⟨2, 7, "a", .unban, .pending, "t"⟩,
        ⟨3, 7, "a", .unban, .pending, "t"⟩, ⟨4, 7, "a", .unban, .pending, "t"⟩,
        ⟨5, 7, "a", .unban, .pending, "t"⟩, ⟨6, 7, "a", .unban, .pending, "t"⟩],
       7⟩ 0).2.2 (by decide)).1).mpr (by decide)

/-- Claim C4 counterexample: one pending appeal, `/pending 1` from the
admin — the page number is positive, yet the reply is the bare empty-state
message with no "⬅ Previous" control, refuting "previous iff `k > 0`". -/
theorem C4_counterexample :
    (0 : Nat) < 1
    ∧ Store.countPending ⟨[⟨1, 7, "alice", .unban, .pending, "t"⟩], 2⟩ = 1
    ∧ (step 42 ⟨[⟨1, 7, "alice", .unban, .pending, "t"⟩], 2⟩
        (.pendingCmd 42 ["1"])).effects = [.reply "No pending appeals!"]
    ∧ hasButton (step 42 ⟨[⟨1, 7, "alice", .unban, .pending, "t"⟩], 2⟩
        (.pendingCmd 42 ["1"])).effects "⬅ Previous" = false := by
  refine ⟨by decide, by decide, by decide, by decide⟩

/-- Claim C5: a valid appeal creation (payload parsed as `unban` or `admin`)
appends exactly one row, carrying status `pending` and the fresh id
`next_id`, which is strictly greater than every previously assigned id and
not among them; well-formedness (all ids below the counter, ids distinct —
hence ids are never reused) is preserved. -/
theorem C5_create_fresh_id (adminId : Int) (s : Store) (uid : Int)
    (uname payload nowIso nowFmt : String) (t : AppealType)
    (hwf : s.WF) (hp : AppealType.ofValue payload = some t) :
    (step adminId s (.callback uid uname payload nowIso nowFmt)).store.rows
        = s.rows ++ [⟨s.next_id, uid, uname, t, .pending, nowIso⟩]
    ∧ (∀ r ∈ s.rows, r.id < s.next_id)
    ∧ s.next_id ∉ s.rows.map Appeal.id
    ∧ (step adminId s (.callback uid uname payload nowIso nowFmt)).store.WF := by
  have h1 : (step adminId s (.callback uid uname payload nowIso nowFmt)).store
      = s.insert uid uname t nowIso := by
    simp [step, handle_appeal, hp]
  refine ⟨by rw [h1]; rfl, hwf.1, ?_, ?_⟩
  · intro hmem
    rcases List.mem_map.mp hmem with ⟨r, hr, hid⟩
    exact absurd (hid ▸ hwf.1 r hr) (lt_irrefl _)
  · rw [h1]
    unfold Store.insert Store.WF
    refine ⟨?_, ?_⟩
    · intro r hr
      rcases List.mem_append.mp hr with hmem | hmem
      · exact Nat.lt_succ_of_lt (hwf.1 r hmem)
      · have : r = ⟨s.next_id, uid, uname, t, .pending, nowIso⟩ := by
          simpa using hmem
        rw [this]
        exact Nat.lt_succ_self _
    · rw [List.map_append]
      refine List.Nodup.append hwf.2 (by simp) ?_
      intro a ha hb
      have hlt : a < s.next_id := by
        rcases List.mem_map.mp ha with ⟨r, hr, hid⟩
        exact hid ▸ hwf.1 r hr
      have heq : a = s.next_id := by simpa using hb
      omega

/-- Claim C5 witness: instantiation on the empty store and the `unban`
selection — the single created row is `⟨1, 7, "alice", unban, pending, t0⟩`. -/
theorem C5_create_fresh_id_witness :
    ((step 42 Store.empty (.callback 7 "alice" "unban" "t0" "t1")).store.rows
        = Store.empty.rows
            ++ [⟨Store.empty.next_id, 7, "alice", .unban, .pending, "t0"⟩])
    ∧ (∀ r ∈ Store.empty.rows, r.id < Store.empty.next_id)
    ∧ Store.empty.next_id ∉ Store.empty.rows.map Appeal.id
    ∧ (step 42 Store.empty (.callback 7 "alice" "unban" "t0" "t1")).store.WF :=
  C5_create_fresh_id 42 Store.empty 7 "alice" "unban" "t0" "t1" .unban
    (by decide) (by decide)

/-- Claim C6: an admin-only command (`/pending`, `/approve`, `/reject`) from
any user other than the configured admin is answered with the unauthorized
message and nothing else: the store is untouched and no further effect or
exception occurs (the `admin_only` wrapper returns before the handler body
runs). -/
theorem C6_unauthorized (adminId invoker : Int) (s : Store)
    (args : List String) (h : invoker ≠ adminId) :
    step adminId s (.pendingCmd invoker args)
        = ⟨s, [.reply "⛔ Unauthorized access!"], false⟩
    ∧ step adminId s (.approveCmd invoker args)
        = ⟨s, [.reply "⛔ Unauthorized access!"], false⟩
    ∧ step adminId s (.rejectCmd invoker args)
        = ⟨s, [.reply "⛔ Unauthorized access!"], false⟩ := by
  refine ⟨?_, ?_, ?_⟩ <;> simp [step, pending, resolve_appeal, h]

/-- Claim C6 witness: user 7 invoking the three admin commands against
admin 42. -/
theorem C6_unauthorized_witness :
    step 42 Store.empty (.pendingCmd 7 [])
        = ⟨Store.empty, [.reply "⛔ Unauthorized access!"], false⟩
    ∧ step 42 Store.empty (.approveCmd 7 [])
        = ⟨Store.empty, [.reply "⛔ Unauthorized access!"], false⟩
    ∧ step 42 Store.empty (.rejectCmd 7 [])
        = ⟨Store.empty, [.reply "⛔ Unauthorized access!"], false⟩ :=
  C6_unauthorized 42 7 Store.empty [] (by decide)

/-- Claim C7: a callback whose payload is neither `unban` nor `admin`
inserts nothing — the table is unchanged — and only edits the message to the
invalid-selection text. -/
theorem C7_invalid_selection (adminId : Int) (s : Store) (uid : Int)
    (uname payload nowIso nowFmt : String)
    (h1 : payload ≠ "unban") (h2 : payload ≠ "admin") :
    step adminId s (.callback uid uname payload nowIso nowFmt)
      = ⟨s, [.editMessage "❌ Invalid appeal type selected!"], false⟩ := by
  simp [step, handle_appeal, AppealType.ofValue, h1, h2]

/-- Claim C7 witness: the payload `"unband"` is rejected with no insert. -/
theorem C7_invalid_selection_witness :
    step 42 Store.empty (.callback 7 "alice" "unband" "t0" "t1")
      = ⟨Store.empty, [.editMessage "❌ Invalid appeal type selected!"], false⟩ :=
  C7_invalid_selection 42 Store.empty 7 "alice" "unband" "t0" "t1"
    (by decide) (by decide)

theorem resolve_not_found (adminId : Int) (s : Store) (idStr : String)
    (rest : List String) (st : AppealStatus)
    (hdig : pyIsDigit idStr = true)
    (habs : ∀ r ∈ s.rows, r.id ≠ digitsToNat idStr.data) :
    resolve_appeal adminId s adminId (idStr :: rest) st
      = (s, [.reply "⚠ Appeal ID not found!"]) := by
  have h0 : (s.updateStatus (digitsToNat idStr.data) st).2 = 0 :=
    (updateStatus_rowcount_zero s _ st).mpr habs
  simp [resolve_appeal, hdig, h0, updateStatus_nomatch s _ st habs]

/-- Claim C8: an admin `/approve` or `/reject` naming a numeric id with no
matching row answers "Appeal ID not found!" only: the store is unchanged and
no notification is sent to anyone. -/
theorem C8_not_found (adminId : Int) (s : Store) (idStr : String)
    (rest : List String)
    (hdig : pyIsDigit idStr = true)
    (habs : ∀ r ∈ s.rows, r.id ≠ digitsToNat idStr.data) :
    step adminId s (.approveCmd adminId (idStr :: rest))
        = ⟨s, [.reply "⚠ Appeal ID not found!"], false⟩
    ∧ step adminId s (.rejectCmd adminId (idStr :: rest))
        = ⟨s, [.reply "⚠ Appeal ID not found!"], false⟩ := by
  refine ⟨?_, ?_⟩ <;>
    simp [step, resolve_not_found adminId s idStr rest _ hdig habs]

/-- Claim C8 witness: `/approve 999` and `/reject 999` on a store holding
only appeal 1. -/
theorem C8_not_found_witness :
    step 42 ⟨[⟨1, 7, "alice", .unban, .pending, "t"⟩], 2⟩
        (.approveCmd 42 ["999"])
        = ⟨⟨[⟨1, 7, "alice", .unban, .pending, "t"⟩], 2⟩,
           [.reply "⚠ Appeal ID not found!"], false⟩
    ∧ step 42 ⟨[⟨1, 7, "alice", .unban, .pending, "t"⟩], 2⟩
        (.rejectCmd 42 ["999"])
        = ⟨⟨[⟨1, 7, "alice", .unban, .pending, "t"⟩], 2⟩,
           [.reply "⚠ Appeal ID not found!"], false⟩ :=
  C8_not_found 42 ⟨[⟨1, 7, "alice", .unban, .pending, "t"⟩], 2⟩ "999" []
    (by decide) (by decide)

theorem resolve_found (adminId : Int) (s : Store) (idStr : String)
    (rest : List String) (st : AppealStatus) (r0 : Appeal)
    (hwf : s.WF) (hdig : pyIsDigit idStr = true)
    (hmem : r0 ∈ s.rows) (hid : r0.id = digitsToNat idStr.data) :
    resolve_appeal adminId s adminId (idStr :: rest) st
      = ((s.updateStatus (digitsToNat idStr.data) st).1,
         [ .reply (pyCapitalize st.value ++ " appeal #" ++ idStr)
         , .sendMessage r0.user_id
             ("📨 Your appeal has been " ++ st.value
               ++ "!\n\nReference ID: " ++ idStr) ]) := by
  have hcnt : ¬(s.updateStatus (digitsToNat idStr.data) st).2 = 0 := by
    rw [updateStatus_rowcount_zero]
    intro hall
    exact hall r0 hmem hid
  have huid : (s.updateStatus (digitsToNat idStr.data) st).1.getUserId
      (digitsToNat idStr.data) = some r0.user_id := by
    rw [getUserId_update]
    unfold Store.getUserId
    rw [find?_of_mem_of_nodup s.rows hwf.2 r0 hmem _ hid]
    rfl
  simp [resolve_appeal, hdig, hcnt, huid]

/-- Claim C9: an admin `/approve` (resp. `/reject`) naming an existing id
sets exactly that row's status to the requested value — a read of the same
id afterwards returns it — replies to the admin with a confirmation naming
the capitalized status and the id, and notifies the submitting user with a
message naming the new status and the reference id. -/
theorem C9_resolve_existing (adminId : Int) (s : Store) (idStr : String)
    (rest : List String) (r0 : Appeal)
    (hwf : s.WF) (hdig : pyIsDigit idStr = true)
    (hmem : r0 ∈ s.rows) (hid : r0.id = digitsToNat idStr.data) :
    ((step adminId s (.approveCmd adminId (idStr :: rest))).store.statusOf
        (digitsToNat idStr.data) = some .approved
      ∧ (step adminId s (.approveCmd adminId (idStr :: rest))).effects
        = [ .reply (pyCapitalize AppealStatus.approved.value
              ++ " appeal #" ++ idStr)
          , .sendMessage r0.user_id
              ("📨 Your appeal has been " ++ AppealStatus.approved.value
                ++ "!\n\nReference ID: " ++ idStr) ])
    ∧ ((step adminId s (.rejectCmd adminId (idStr :: rest))).store.statusOf
        (digitsToNat idStr.data) = some .rejected
      ∧ (step adminId s (.rejectCmd adminId (idStr :: rest))).effects
        = [ .reply (pyCapitalize AppealStatus.rejected.value
              ++ " appeal #" ++ idStr)
          , .sendMessage r0.user_id
              ("📨 Your appeal has been " ++ AppealStatus.rejected.value
                ++ "!\n\nReference ID: " ++ idStr) ]) := by
  have hso : s.statusOf (digitsToNat idStr.data) = some r0.status := by
    unfold Store.statusOf
    rw [find?_of_mem_of_nodup s.rows hwf.2 r0 hmem _ hid]
    rfl
  have happ := resolve_found adminId s idStr rest .approved r0 hwf hdig hmem hid
  have hrej := resolve_found adminId s idStr rest .rejected r0 hwf hdig hmem hid
  refine ⟨⟨?_, ?_⟩, ⟨?_, ?_⟩⟩
  · have hst : (step adminId s (.approveCmd adminId (idStr :: rest))).store
        = (s.updateStatus (digitsToNat idStr.data) .approved).1 := by
      simp [step, happ]
    rw [hst, statusOf_update, hso]
    simp
  · simp [step, happ]
  · have hst : (step adminId s (.rejectCmd adminId (idStr :: rest))).store
        = (s.updateStatus (digitsToNat idStr.data) .rejected).1 := by
      simp [step, hrej]
    rw [hst, statusOf_update, hso]
    simp
  · simp [step, hrej]

/-- Claim C9 witness: `/approve 1` and `/reject 1` on a store holding the
pending appeal 1 submitted by user 7. -/
theorem C9_resolve_existing_witness :
    ((step 42 ⟨[⟨1, 7, "alice", .unban, .pending, "t"⟩], 2⟩
        (.approveCmd 42 ["1"])).store.statusOf
        (digitsToNat "1".data) = some .approved
      ∧ (step 42 ⟨[⟨1, 7, "alice", .unban, .pending, "t"⟩], 2⟩
        (.approveCmd 42 ["1"])).effects
        = [ .reply (pyCapitalize AppealStatus.approved.value ++ " appeal #" ++ "1")
          , .sendMessage 7
              ("📨 Your appeal has been " ++ AppealStatus.approved.value
                ++ "!\n\nReference ID: " ++ "1") ])
    ∧ ((step 42 ⟨[⟨1, 7, "alice", .unban, .pending, "t"⟩], 2⟩
        (.rejectCmd 42 ["1"])).store.statusOf
        (digitsToNat "1".data) = some .rejected
      ∧ (step 42 ⟨[⟨1, 7, "alice", .unban, .pending, "t"⟩], 2⟩
        (.rejectCmd 42 ["1"])).effects
        = [ .reply (pyCapitalize AppealStatus.rejected.value ++ " appeal #" ++ "1")
          , .sendMessage 7
              ("📨 Your appeal has been " ++ AppealStatus.rejected.value
                ++ "!\n\nReference ID: " ++ "1") ]) :=
  C9_resolve_existing 42 ⟨[⟨1, 7, "alice", .unban, .pending, "t"⟩], 2⟩ "1" []
    ⟨1, 7, "alice", .unban, .pending, "t"⟩ (by decide) (by decide)
    (by decide) (by decide)

theorem frame_update (s : Store) (id : Nat) (st : AppealStatus) (i : Nat) :
    (((s.updateStatus id st).1.rows[i]?).map Appeal.frameFields)
      = (s.rows[i]?).map Appeal.frameFields := by
  unfold Store.updateStatus
  dsimp only
  rw [List.getElem?_map]
  cases hx : s.rows[i]? with
  | none => rfl
  | some r => by_cases hc : r.id = id <;> simp [Appeal.frameFields, hc]

theorem resolve_frame (adminId : Int) (s : Store) (invoker : Int)
    (args : List String) (st : AppealStatus) (i : Nat) :
    (((resolve_appeal adminId s invoker args st).1.rows[i]?).map
        Appeal.frameFields)
      = (s.rows[i]?).map Appeal.frameFields := by
  unfold resolve_appeal
  split
  · rfl
  · split
    · rfl
    · dsimp only
      split
      · split
        · exact frame_update s _ st i
        · split
          · exact frame_update s _ st i
          · exact frame_update s _ st i
      · rfl

/-- Claim C10: no operation ever modifies the `id`, `user_id`, `username`,
`appeal_type` or `timestamp` of an existing row — the row at each existing
position keeps all its fields except possibly `status`. -/
theorem C10_frame (adminId : Int) (s : Store) (op : Op) (i : Nat)
    (h : i < s.rows.length) :
    ((step adminId s op).store.rows[i]?).map Appeal.frameFields
      = (s.rows[i]?).map Appeal.frameFields := by
  cases op with
  | startCmd u => rfl
  | appealCmd u => rfl
  | pendingCmd invoker args =>
      cases hp : pending adminId s invoker args <;> simp [step, hp]
  | callback uid uname payload nowIso nowFmt =>
      cases hof : AppealType.ofValue payload with
      | none => simp [step, handle_appeal, hof]
      | some t =>
          have hrows :
              (step adminId s (.callback uid uname payload nowIso nowFmt)).store.rows
                = s.rows ++ [⟨s.next_id, uid, uname, t, .pending, nowIso⟩] := by
            simp [step, handle_appeal, hof, Store.insert]
          rw [hrows, List.getElem?_append, if_pos h]
  | approveCmd invoker args =>
      have hst : (step adminId s (.approveCmd invoker args)).store
          = (resolve_appeal adminId s invoker args .approved).1 := by
        simp [step]
      rw [hst]
      exact resolve_frame adminId s invoker args .approved i
  | rejectCmd invoker args =>
      have hst : (step adminId s (.rejectCmd invoker args)).store
          = (resolve_appeal adminId s invoker args .rejected).1 := by
        simp [step]
      rw [hst]
      exact resolve_frame adminId s invoker args .rejected i

/-- Claim C10 witness: resolving appeal 1 keeps every field of row 0 except
`status`. -/
theorem C10_frame_witness :
    ((step 42 ⟨[⟨1, 7, "alice", .unban, .pending, "t"⟩], 2⟩
        (.approveCmd 42 ["1"])).store.rows[0]?).map Appeal.frameFields
      = ((⟨[⟨1, 7, "alice", .unban, .pending, "t"⟩], 2⟩ : Store).rows[0]?).map
          Appeal.frameFields :=
  C10_frame 42 ⟨[⟨1, 7, "alice", .unban, .pending, "t"⟩], 2⟩
    (.approveCmd 42 ["1"]) 0 (by decide)

end FedBot
